import Mathlib

/-!
Verification of the matching / messaging core of the `backend-meeting`
dating-app repository, shallowly embedded in Lean 4.

Python's unbounded integers are modelled as `ℤ`/`ℕ`, Python float arithmetic
in the score formulas is modelled as exact rational arithmetic (`ℚ`),
`int(·)` as truncation toward zero, and Django rows as explicit lists of
records with get-or-create / update-by-key helpers.  Each database-mutating
service is a pure function from state to state; raised exceptions become
`Except`/`Option` results that leave the state unchanged.  `timezone.now()`
is modelled as a logical clock: every call reads the current tick and
advances it.
-/

/-- Python `int(x)` applied to a (float modelled as) rational number:
truncation toward zero. -/
def truncQ (q : ℚ) : ℤ := if 0 ≤ q then ⌊q⌋ else ⌈q⌉

namespace MatchingService

/-- Embeds `MatchingService.calculate_age_score`
(`src/apps/matching/services.py` lines 49-83).  The `user_age` argument is
present in the source signature but never read in the body. -/
def calculate_age_score (user_age target_age min_age max_age importance : ℤ) : ℤ :=
  -- If target is outside preference range, return 0
  if target_age < min_age ∨ max_age < target_age then 0
  else
    let ideal : ℚ := ((min_age : ℚ) + (max_age : ℚ)) / 2
    let age_diff : ℚ := |(target_age : ℚ) - ideal|
    let range_size : ℤ := max_age - min_age
    if range_size = 0 then
      -- If range is a single age, perfect match if equal
      (if age_diff = 0 then 100 else 0)
    else
      let raw_score : ℚ := 100 - (age_diff / (range_size : ℚ) * 100)
      let weighted_score : ℚ := raw_score * ((importance : ℚ) / 5)
      max 0 (min 100 (truncQ weighted_score))

/-- Embeds `MatchingService.calculate_interest_score`
(`src/apps/matching/services.py` lines 153-195).  The source converts the two
interest collections into sets of ids; the embedding takes those id sets
directly (a Python collection is falsy exactly when its id set is empty). -/
def calculate_interest_score (user_interests target_interests : Finset ℕ)
    (importance : ℤ) : ℤ :=
  if user_interests = ∅ ∨ target_interests = ∅ then 50  -- Neutral score if data missing
  else
    if user_interests = ∅ ∧ target_interests = ∅ then 50
    else
      let intersection : ℕ := (user_interests ∩ target_interests).card
      let union : ℕ := (user_interests ∪ target_interests).card
      if union = 0 then 50
      else
        let raw_score : ℚ := ((intersection : ℚ) / (union : ℚ)) * 100
        let weighted_score : ℚ := raw_score * ((importance : ℚ) / 5)
        max 0 (min 100 (truncQ weighted_score))

/-- Embeds `MatchingService.calculate_relationship_goal_score`
(`src/apps/matching/services.py` lines 197-229).  Goals are strings in the
source; a blank goal is `none`. -/
def calculate_relationship_goal_score (user_goal target_goal : Option String)
    (importance : ℤ) : ℤ :=
  match user_goal, target_goal with
  | none, _ => 50  -- Neutral if missing
  | _, none => 50
  | some ug, some tg =>
    let raw_score : ℚ :=
      if ug = tg then 100
      else if ug = "unsure" ∨ tg = "unsure" then 75
      else if (ug = "serious" ∧ tg = "casual") ∨ (ug = "casual" ∧ tg = "serious") then 20
      else 50
    let weighted_score : ℚ := raw_score * ((importance : ℚ) / 5)
    max 0 (min 100 (truncQ weighted_score))

end MatchingService

-- sanity checks for the rational embedding
example : MatchingService.calculate_age_score 25 25 20 30 5 = 100 := by
  norm_num [MatchingService.calculate_age_score, truncQ]
example : MatchingService.calculate_age_score 25 20 20 30 3 = 30 := by
  norm_num [MatchingService.calculate_age_score, truncQ]
example : MatchingService.calculate_age_score 25 40 20 30 3 = 0 := by
  norm_num [MatchingService.calculate_age_score]
example : MatchingService.calculate_age_score 25 22 22 22 1 = 100 := by
  norm_num [MatchingService.calculate_age_score]

/-- C8: for all integer inputs, `calculate_age_score` returns 0 strictly
outside `[min_age, max_age]`; inside a range of positive width it returns the
linear-decay value `100 - |target - midpoint| / width * 100` scaled by
`importance / 5`, truncated to an integer and clamped to `[0, 100]`; and in
the zero-width case `min_age = max_age` it returns 100 exactly when the target
age equals that age and 0 otherwise. -/
theorem c8_age_score_formula (u t mn mx imp : ℤ) :
    ((t < mn ∨ mx < t) → MatchingService.calculate_age_score u t mn mx imp = 0) ∧
    (mn < mx → mn ≤ t → t ≤ mx →
      MatchingService.calculate_age_score u t mn mx imp =
        max 0 (min 100 (truncQ ((100 -
          |(t : ℚ) - ((mn : ℚ) + (mx : ℚ)) / 2| / ((mx : ℚ) - (mn : ℚ)) * 100) *
          ((imp : ℚ) / 5))))) ∧
    (mn = mx →
      MatchingService.calculate_age_score u t mn mx imp = if t = mn then 100 else 0) := by
  refine ⟨?_, ?_, ?_⟩
  · intro h
    unfold MatchingService.calculate_age_score
    rw [if_pos h]
  · intro hlt h1 h2
    unfold MatchingService.calculate_age_score
    rw [if_neg (by omega)]
    dsimp only
    rw [if_neg (by omega : ¬(mx - mn = 0)), Int.cast_sub]
  · intro hmm
    subst hmm
    by_cases ht : t = mn
    · subst ht
      unfold MatchingService.calculate_age_score
      rw [if_neg (by omega)]
      dsimp only
      rw [if_pos (by omega : t - t = 0), if_pos, if_pos rfl]
      rw [show ((t : ℚ) + (t : ℚ)) / 2 = (t : ℚ) by ring]
      simp
    · unfold MatchingService.calculate_age_score
      rw [if_pos (by omega), if_neg ht]

/-- Witness for C8 at a concrete input: the target age 40 lies strictly above
the preferred range `[20, 30]`, so the score is 0. -/
theorem c8_age_score_formula_witness :
    MatchingService.calculate_age_score 25 40 20 30 3 = 0 :=
  (c8_age_score_formula 25 40 20 30 3).1 (Or.inr (by decide))

/-- C9: `calculate_interest_score` is symmetric in its two interest-set
arguments, for every importance value, including when either set is empty. -/
theorem c9_interest_score_symm (A B : Finset ℕ) (imp : ℤ) :
    MatchingService.calculate_interest_score A B imp =
      MatchingService.calculate_interest_score B A imp := by
  by_cases hA : A = ∅ <;> by_cases hB : B = ∅ <;>
    simp [MatchingService.calculate_interest_score, hA, hB,
      Finset.inter_comm, Finset.union_comm]

/-- C10: the age sub-score is independent of the requesting user's own age:
the `user_age` argument (in particular the default of 25 substituted at the
call site in `calculate_match_score`) has no influence on the result. -/
theorem c10_age_score_ignores_user_age (u₁ u₂ t mn mx imp : ℤ) :
    MatchingService.calculate_age_score u₁ t mn mx imp =
      MatchingService.calculate_age_score u₂ t mn mx imp := rfl

/-! ## Coin wallet and transaction ledger (`src/apps/messaging/models.py`) -/

/-- Embeds the mutable columns of `CoinWallet` (lines 30-75).  All four
counters are Django `PositiveIntegerField`s, hence `ℕ`. -/
structure CoinWallet where
  balance : ℕ
  total_earned : ℕ
  total_spent : ℕ
  total_purchased : ℕ
deriving DecidableEq, Repr

/-- Embeds the default column values of a freshly created `CoinWallet`:
new users start with 10 coins, `total_earned = 10`, and zero spent/purchased. -/
def CoinWallet.new : CoinWallet :=
  { balance := 10, total_earned := 10, total_spent := 0, total_purchased := 0 }

/-- Embeds the fields of a `CoinTransaction` row relevant to the ledger
(lines 159-227): the signed amount, the transaction type and the balance
recorded after the operation. -/
structure CoinTransaction where
  amount : ℤ
  transaction_type : String
  balance_after : ℕ
deriving DecidableEq, Repr

/-- Embeds `CoinWallet.has_sufficient_balance` (lines 77-81). -/
def CoinWallet.has_sufficient_balance (w : CoinWallet) (amount : ℕ) : Bool :=
  amount ≤ w.balance

/-- Embeds `CoinWallet.add_coins` (lines 83-112): increases `balance` and
`total_earned` by `amount` and records one credit transaction carrying the
post-mutation balance. -/
def CoinWallet.add_coins (w : CoinWallet) (amount : ℕ) (transaction_type : String) :
    CoinWallet × CoinTransaction :=
  let w' := { w with balance := w.balance + amount, total_earned := w.total_earned + amount }
  (w', { amount := (amount : ℤ), transaction_type := transaction_type,
         balance_after := w'.balance })

/-- Embeds `CoinWallet.deduct_coins` (lines 114-153): raises (here: returns
`Except.error`) when the balance is insufficient, otherwise decreases
`balance`, increases `total_spent` and records one debit transaction with the
negated amount and the post-mutation balance. -/
def CoinWallet.deduct_coins (w : CoinWallet) (amount : ℕ) (transaction_type : String) :
    Except String (CoinWallet × CoinTransaction) :=
  if ¬ w.has_sufficient_balance amount then
    .error "Insufficient coin balance."
  else
    let w' := { w with balance := w.balance - amount, total_spent := w.total_spent + amount }
    .ok (w', { amount := -(amount : ℤ), transaction_type := transaction_type,
               balance_after := w'.balance })

/-- Embeds a wallet together with its append-only transaction ledger. -/
structure WalletState where
  wallet : CoinWallet
  transactions : List CoinTransaction
deriving DecidableEq, Repr

/-- Embeds the effect of calling `deduct_coins` on a persisted wallet: on the
insufficient-balance exception nothing is mutated and the error is reported;
on success the wallet is updated and exactly one transaction row is appended. -/
def WalletState.deductCoins (s : WalletState) (amount : ℕ) (transaction_type : String) :
    WalletState × Option String :=
  match s.wallet.deduct_coins amount transaction_type with
  | .error e => (s, some e)
  | .ok (w', tx) => ({ wallet := w', transactions := s.transactions ++ [tx] }, none)

/-- Embeds the effect of calling `add_coins` on a persisted wallet. -/
def WalletState.addCoins (s : WalletState) (amount : ℕ) (transaction_type : String) :
    WalletState :=
  let (w', tx) := s.wallet.add_coins amount transaction_type
  { wallet := w', transactions := s.transactions ++ [tx] }

/-- Embeds `CoinService.purchase_coins` (`src/apps/messaging copy/services.py`
lines 370-405): `add_coins` with type `purchase`, then `total_purchased` is
increased by the amount. -/
def WalletState.purchaseCoins (s : WalletState) (amount : ℕ) : WalletState :=
  let s' := s.addCoins amount "purchase"
  { s' with wallet := { s'.wallet with
      total_purchased := s'.wallet.total_purchased + amount } }

/-- Embeds `CoinService.award_coins` (`src/apps/messaging copy/services.py`
lines 407-434): `add_coins` with type `reward`. -/
def WalletState.awardCoins (s : WalletState) (amount : ℕ) : WalletState :=
  s.addCoins amount "reward"

/-- The C4 invariant: `balance = total_earned - total_spent`, stated over `ℤ`. -/
def WalletInv (w : CoinWallet) : Prop :=
  (w.balance : ℤ) = (w.total_earned : ℤ) - (w.total_spent : ℤ)

instance (w : CoinWallet) : Decidable (WalletInv w) := by
  unfold WalletInv; infer_instance

/-- C3: `deduct_coins` with `amount > balance` fails with the
insufficient-balance error and leaves the wallet and the transaction ledger
completely unchanged; with `amount ≤ balance` it decreases the balance by
exactly `amount`, increases `total_spent` by `amount`, and appends exactly one
transaction with the negated amount and `balance_after` equal to the
post-deduction balance. -/
theorem c3_deduct_coins_atomic (s : WalletState) (amount : ℕ) (ttype : String) :
    (s.wallet.balance < amount →
      s.deductCoins amount ttype = (s, some "Insufficient coin balance.")) ∧
    (amount ≤ s.wallet.balance →
      s.deductCoins amount ttype =
        ({ wallet := { s.wallet with
             balance := s.wallet.balance - amount,
             total_spent := s.wallet.total_spent + amount },
           transactions := s.transactions ++
             [{ amount := -(amount : ℤ), transaction_type := ttype,
                balance_after := s.wallet.balance - amount }] }, none)) := by
  constructor
  · intro h
    unfold WalletState.deductCoins CoinWallet.deduct_coins
    rw [if_pos (by simp [CoinWallet.has_sufficient_balance]; omega)]
  · intro h
    unfold WalletState.deductCoins CoinWallet.deduct_coins
    rw [if_neg (by simp [CoinWallet.has_sufficient_balance]; omega)]

/-- Witness for C3 at the concrete inputs from the claim: on a wallet with
balance 5, deducting 10 fails leaving the state unchanged, and deducting 5
succeeds leaving balance 0 with one appended transaction
`(amount = -5, balance_after = 0)`. -/
theorem c3_deduct_coins_atomic_witness :
    (WalletState.deductCoins ⟨⟨5, 10, 5, 0⟩, []⟩ 10 "message" =
      (⟨⟨5, 10, 5, 0⟩, []⟩, some "Insufficient coin balance.")) ∧
    (WalletState.deductCoins ⟨⟨5, 10, 5, 0⟩, []⟩ 5 "message" =
      (⟨⟨0, 10, 10, 0⟩, [⟨-5, "message", 0⟩]⟩, none)) :=
  ⟨(c3_deduct_coins_atomic ⟨⟨5, 10, 5, 0⟩, []⟩ 10 "message").1 (by decide),
   (c3_deduct_coins_atomic ⟨⟨5, 10, 5, 0⟩, []⟩ 5 "message").2 (by decide)⟩

/-- C4: `balance = total_earned - total_spent` holds for a freshly created
wallet (10 = 10 - 0) and is preserved by `add_coins`, by `deduct_coins`, and
by the purchase and reward services, both of which also increase
`total_earned` by the credited amount. -/
theorem c4_wallet_invariant :
    WalletInv CoinWallet.new ∧
    (∀ (w : CoinWallet) (a : ℕ) (t : String),
      WalletInv w → WalletInv (w.add_coins a t).1) ∧
    (∀ (w w' : CoinWallet) (a : ℕ) (t : String) (tx : CoinTransaction),
      WalletInv w → w.deduct_coins a t = .ok (w', tx) → WalletInv w') ∧
    (∀ (s : WalletState) (a : ℕ), WalletInv s.wallet →
      WalletInv (s.purchaseCoins a).wallet ∧
      (s.purchaseCoins a).wallet.total_earned = s.wallet.total_earned + a) ∧
    (∀ (s : WalletState) (a : ℕ), WalletInv s.wallet →
      WalletInv (s.awardCoins a).wallet ∧
      (s.awardCoins a).wallet.total_earned = s.wallet.total_earned + a) := by
  refine ⟨by decide, ?_, ?_, ?_, ?_⟩
  · intro w a t h
    unfold WalletInv CoinWallet.add_coins at *
    push_cast
    omega
  · intro w w' a t tx h hok
    unfold CoinWallet.deduct_coins at hok
    by_cases hs : w.has_sufficient_balance a = true
    · rw [if_neg (by simp [hs])] at hok
      cases hok
      unfold WalletInv at *
      unfold CoinWallet.has_sufficient_balance at hs
      simp only [decide_eq_true_eq] at hs
      push_cast
      omega
    · rw [if_pos (by simp_all)] at hok
      cases hok
  · intro s a h
    unfold WalletState.purchaseCoins WalletState.addCoins
    unfold WalletInv CoinWallet.add_coins at *
    constructor
    · push_cast; omega
    · rfl
  · intro s a h
    unfold WalletState.awardCoins WalletState.addCoins
    unfold WalletInv CoinWallet.add_coins at *
    constructor
    · push_cast; omega
    · rfl

/-- Witness for C4: the invariant holds after purchasing 7 coins on a fresh
wallet, and the purchase credited `total_earned` accordingly. -/
theorem c4_wallet_invariant_witness :
    WalletInv (WalletState.purchaseCoins ⟨CoinWallet.new, []⟩ 7).wallet ∧
    (WalletState.purchaseCoins ⟨CoinWallet.new, []⟩ 7).wallet.total_earned =
      (CoinWallet.new).total_earned + 7 :=
  (c4_wallet_invariant).2.2.2.1 ⟨CoinWallet.new, []⟩ 7 (by decide)

/-! ## Swipe / match state machine
(`src/apps/matching/models.py`, `src/apps/matching/services.py`,
`src/apps/matching/views.py`) -/

/-- Embeds `Match.MATCH_STATUS` (models.py lines 31-36). -/
inductive MatchStatus where
  | pending
  | matched
  | passed
  | expired
deriving DecidableEq, Repr

/-- Embeds `SwipeAction.ACTION_TYPES` (models.py lines 231-234). -/
inductive SwipeKind where
  | like
  | pass
deriving DecidableEq, Repr

/-- Embeds the columns of a `Match` row (models.py lines 23-98).  Users are
identified by `ℕ` ids; `matched_at` is a logical-clock tick. -/
structure MatchRow where
  user : ℕ
  matched_user : ℕ
  status : MatchStatus
  match_score : ℕ
  is_mutual : Bool
  matched_at : Option ℕ
deriving DecidableEq, Repr

/-- Embeds the columns of a `SwipeAction` row (models.py lines 220-276). -/
structure SwipeRow where
  user : ℕ
  target_user : ℕ
  action : SwipeKind
  match_score_at_swipe : ℕ
deriving DecidableEq, Repr

/-- Embeds the database state touched by the swipe/match machine, together
with the logical clock backing `timezone.now()`. -/
structure MatchState where
  swipes : List SwipeRow
  match_rows : List MatchRow  -- the `matches` table (field renamed: `matches` is a Lean keyword)
  clock : ℕ
deriving DecidableEq, Repr

/-- Lookup of the unique `Match` row for the ordered pair `(u, t)`
(`Match.objects.get(user=..., matched_user=...)`). -/
def findMatch (ms : List MatchRow) (u t : ℕ) : Option MatchRow :=
  ms.find? (fun r => r.user == u && r.matched_user == t)

/-- Row update by the `(user, matched_user)` unique key (`instance.save()`). -/
def updateMatchRows (ms : List MatchRow) (u t : ℕ) (f : MatchRow → MatchRow) :
    List MatchRow :=
  ms.map (fun r => if r.user == u && r.matched_user == t then f r else r)

/-- Field assignment performed on a row by `Match.mark_as_mutual` at clock
tick `n`: `is_mutual = True`, `status = 'matched'`, `matched_at = now`. -/
def promote (n : ℕ) (r : MatchRow) : MatchRow :=
  { r with is_mutual := true, status := .matched, matched_at := some n }

/-- Embeds `Match.create_match` (models.py lines 103-116): `get_or_create`
of the directional row with defaults `status='pending'`. -/
def create_match (st : MatchState) (u t score : ℕ) : MatchState :=
  match findMatch st.match_rows u t with
  | some _ => st
  | none => { st with match_rows := st.match_rows ++
      [{ user := u, matched_user := t, status := .pending, match_score := score,
         is_mutual := false, matched_at := none }] }

/-- Embeds `Match.mark_as_mutual` (models.py lines 118-150), called on the
row keyed `(u, t)`: promote the forward row at the current tick; then promote
the reverse row at a fresh tick if it exists and is not yet mutual, or create
it already-mutual at a fresh tick (reusing the forward row's score) if it
does not exist.  Each `timezone.now()` call advances the clock. -/
def mark_as_mutual (st : MatchState) (u t : ℕ) : MatchState :=
  let st₁ : MatchState :=
    { st with match_rows := updateMatchRows st.match_rows u t (promote st.clock),
              clock := st.clock + 1 }
  match findMatch st₁.match_rows t u with
  | some reverse_match =>
    if reverse_match.is_mutual then st₁
    else
      { st₁ with match_rows := updateMatchRows st₁.match_rows t u (promote st₁.clock),
                 clock := st₁.clock + 1 }
  | none =>
    let fwd_score : ℕ := ((findMatch st₁.match_rows u t).map MatchRow.match_score).getD 0
    let reverse_row : MatchRow :=
      { user := t, matched_user := u, status := .matched, match_score := fwd_score,
        is_mutual := true, matched_at := some st₁.clock }
    { st₁ with match_rows := st₁.match_rows ++ [reverse_row], clock := st₁.clock + 1 }

/-- Reciprocity test shared by the model hook and the service: does a `like`
swipe from `t` toward `u` exist? -/
def reciprocalLikeExists (ss : List SwipeRow) (u t : ℕ) : Bool :=
  ss.any (fun s => s.user == t && s.target_user == u && s.action == SwipeKind.like)

/-- Match side effect of a `like` from `u` toward `t`, duplicated verbatim in
the source between the `SwipeAction.save` override and the service layer:
get-or-create the forward match row, then promote it when the reciprocal like
already exists. -/
def likeStep (st : MatchState) (u t score : ℕ) : MatchState :=
  let st₂ := create_match st u t score
  if reciprocalLikeExists st₂.swipes u t then mark_as_mutual st₂ u t else st₂

/-- Embeds the `SwipeAction.save` override (models.py lines 281-303): on a
newly created `like` row, get-or-create the forward match and promote it when
the reciprocal like already exists. -/
def swipeSaveHook (st : MatchState) (u t score : ℕ) (action : SwipeKind) : MatchState :=
  if action = .like then likeStep st u t score else st

/-- Embeds `MatchingService.create_swipe_action` (services.py lines 422-470).
The match score the source computes through `calculate_match_score` is
supplied by `scoreFn`, abstracting the profile data it reads.
`update_or_create` triggers the `SwipeAction.save` hook only on row creation;
afterwards the service get-or-creates the forward match on a like and calls
`mark_as_mutual` when the reciprocal like exists. -/
def create_swipe_action (st : MatchState) (scoreFn : ℕ → ℕ → ℕ) (u t : ℕ)
    (action : SwipeKind) : MatchState :=
  let match_score := scoreFn u t
  let st₁ :=
    if st.swipes.any (fun s => s.user == u && s.target_user == t) then
      { st with swipes := st.swipes.map (fun s =>
          if s.user == u && s.target_user == t then
            { s with action := action, match_score_at_swipe := match_score }
          else s) }
    else
      swipeSaveHook
        { st with swipes := st.swipes ++
            [{ user := u, target_user := t, action := action,
               match_score_at_swipe := match_score }] }
        u t match_score action
  if action = .like then likeStep st₁ u t match_score else st₁

/-- Embeds a `Block` row (models.py lines 354-397). -/
structure BlockRow where
  blocker : ℕ
  blocked_user : ℕ
deriving DecidableEq, Repr

/-- Embeds `MatchViewSet.block_user` (views.py lines 399-441): get-or-create
the block row, then delete every `Match` row in either direction between the
two users, unconditionally. -/
def block_user (st : MatchState) (blocks : List BlockRow) (blocker blocked : ℕ) :
    MatchState × List BlockRow :=
  let blocks' :=
    if blocks.any (fun b => b.blocker == blocker && b.blocked_user == blocked) then blocks
    else blocks ++ [{ blocker := blocker, blocked_user := blocked }]
  ({ st with match_rows := st.match_rows.filter (fun r =>
      !((r.user == blocker && r.matched_user == blocked) ||
        (r.user == blocked && r.matched_user == blocker))) },
   blocks')

/-! ## Invariants of the match table -/

/-- A mutual row directed from `a` to `b` exists. -/
def HasMutual (ms : List MatchRow) (a b : ℕ) : Prop :=
  ∃ r ∈ ms, r.user = a ∧ r.matched_user = b ∧ r.is_mutual = true

/-- The symmetry invariant of C2: every mutual row has a mutual reverse row. -/
def MutualSym (ms : List MatchRow) : Prop :=
  ∀ r ∈ ms, r.is_mutual = true → HasMutual ms r.matched_user r.user

/-- Every mutual row has status `matched` and a non-null `matched_at`. -/
def MutualStamped (ms : List MatchRow) : Prop :=
  ∀ r ∈ ms, r.is_mutual = true → r.status = .matched ∧ r.matched_at ≠ none

theorem hasMutual_append {ms : List MatchRow} {a b : ℕ} (h : HasMutual ms a b)
    (l : List MatchRow) : HasMutual (ms ++ l) a b := by
  obtain ⟨r, hr, h1, h2, h3⟩ := h
  exact ⟨r, List.mem_append_left _ hr, h1, h2, h3⟩

theorem hasMutual_update {ms : List MatchRow} {a b : ℕ} (h : HasMutual ms a b)
    (u t n : ℕ) : HasMutual (updateMatchRows ms u t (promote n)) a b := by
  obtain ⟨r, hr, h1, h2, h3⟩ := h
  refine ⟨if r.user == u && r.matched_user == t then promote n r else r,
    List.mem_map.2 ⟨r, hr, rfl⟩, ?_, ?_, ?_⟩ <;>
  · split <;> simp [promote, h1, h2, h3]

theorem hasMutual_update_self {ms : List MatchRow} {u t : ℕ}
    (h : ∃ r ∈ ms, r.user = u ∧ r.matched_user = t) (n : ℕ) :
    HasMutual (updateMatchRows ms u t (promote n)) u t := by
  obtain ⟨r, hr, h1, h2⟩ := h
  refine ⟨promote n r, List.mem_map.2 ⟨r, hr, ?_⟩, by simp [promote, h1],
    by simp [promote, h2], by simp [promote]⟩
  rw [if_pos (by simp [h1, h2])]

theorem mem_updateMatchRows {ms : List MatchRow} {u t n : ℕ} {r' : MatchRow}
    (h : r' ∈ updateMatchRows ms u t (promote n)) :
    (∃ r ∈ ms, r' = r) ∨
    (r'.user = u ∧ r'.matched_user = t ∧ r'.is_mutual = true) := by
  obtain ⟨r, hr, rfl⟩ := List.mem_map.1 h
  by_cases hk : (r.user == u && r.matched_user == t) = true
  · right
    rw [if_pos hk]
    simp only [Bool.and_eq_true, beq_iff_eq] at hk
    simp [promote, hk.1, hk.2]
  · left
    exact ⟨r, hr, by rw [if_neg hk]⟩

theorem mutualStamped_update {ms : List MatchRow} (h : MutualStamped ms)
    (u t n : ℕ) : MutualStamped (updateMatchRows ms u t (promote n)) := by
  intro r' hr' hm
  obtain ⟨r, hr, rfl⟩ := List.mem_map.1 hr'
  by_cases hk : (r.user == u && r.matched_user == t) = true
  · rw [if_pos hk]; simp [promote]
  · rw [if_neg hk] at hm ⊢; exact h r hr hm

theorem findMatch_key {ms : List MatchRow} {u t : ℕ} {r : MatchRow}
    (h : findMatch ms u t = some r) : r ∈ ms ∧ r.user = u ∧ r.matched_user = t := by
  have hmem := List.mem_of_find?_eq_some h
  have hp := List.find?_some h
  simp only [Bool.and_eq_true, beq_iff_eq] at hp
  exact ⟨hmem, hp.1, hp.2⟩

/-- `mark_as_mutual` preserves the symmetry invariant, provided the forward
row it is invoked on exists (which the source guarantees: the method is
called on a fetched row). -/
theorem mutualSym_mark {st : MatchState} {u t : ℕ}
    (hex : ∃ r ∈ st.match_rows, r.user = u ∧ r.matched_user = t)
    (hinv : MutualSym st.match_rows) :
    MutualSym (mark_as_mutual st u t).match_rows := by
  unfold mark_as_mutual
  dsimp only
  have hfwd : HasMutual (updateMatchRows st.match_rows u t (promote st.clock)) u t :=
    hasMutual_update_self hex _
  have hdich : ∀ r' ∈ updateMatchRows st.match_rows u t (promote st.clock),
      r'.is_mutual = true →
      (r'.user = u ∧ r'.matched_user = t) ∨
      HasMutual (updateMatchRows st.match_rows u t (promote st.clock))
        r'.matched_user r'.user := by
    intro r' hr' hm
    rcases mem_updateMatchRows hr' with ⟨r, hr, rfl⟩ | ⟨h1, h2, _⟩
    · exact Or.inr (hasMutual_update (hinv r' hr hm) _ _ _)
    · exact Or.inl ⟨h1, h2⟩
  cases hfind : findMatch (updateMatchRows st.match_rows u t (promote st.clock)) t u with
  | some reverse_match =>
    obtain ⟨hrm, hru, hrt⟩ := findMatch_key hfind
    dsimp only
    by_cases hrev : reverse_match.is_mutual = true
    · rw [if_pos hrev]
      intro r' hr' hm
      rcases hdich r' hr' hm with ⟨h1, h2⟩ | h
      · rw [h1, h2]
        exact ⟨reverse_match, hrm, hru, hrt, hrev⟩
      · exact h
    · rw [if_neg hrev]
      intro r'' hr'' hm
      have hrev2 : HasMutual
          (updateMatchRows (updateMatchRows st.match_rows u t (promote st.clock))
            t u (promote (st.clock + 1))) t u :=
        hasMutual_update_self ⟨reverse_match, hrm, hru, hrt⟩ _
      rcases mem_updateMatchRows hr'' with ⟨r', hr', rfl⟩ | ⟨h1, h2, _⟩
      · rcases hdich r'' hr' hm with ⟨h1, h2⟩ | h
        · rw [h1, h2]
          exact hrev2
        · exact hasMutual_update h _ _ _
      · rw [h1, h2]
        exact hasMutual_update hfwd _ _ _
  | none =>
    dsimp only
    intro r' hr' hm
    rcases List.mem_append.1 hr' with hin | hnew
    · rcases hdich r' hin hm with ⟨h1, h2⟩ | h
      · rw [h1, h2]
        exact ⟨_, List.mem_append_right _ (List.mem_singleton_self _), rfl, rfl, rfl⟩
      · exact hasMutual_append h _
    · rw [List.mem_singleton.1 hnew]
      exact hasMutual_append hfwd _

/-- `mark_as_mutual` preserves the stamping invariant. -/
theorem mutualStamped_mark {st : MatchState} (u t : ℕ)
    (h : MutualStamped st.match_rows) :
    MutualStamped (mark_as_mutual st u t).match_rows := by
  unfold mark_as_mutual
  dsimp only
  have h₁ := mutualStamped_update h u t st.clock
  cases hfind : findMatch (updateMatchRows st.match_rows u t (promote st.clock)) t u with
  | some reverse_match =>
    dsimp only
    by_cases hrev : reverse_match.is_mutual = true
    · rw [if_pos hrev]; exact h₁
    · rw [if_neg hrev]; exact mutualStamped_update h₁ t u _
  | none =>
    dsimp only
    intro r' hr' hm
    rcases List.mem_append.1 hr' with hin | hnew
    · exact h₁ r' hin hm
    · rw [List.mem_singleton.1 hnew]; exact ⟨rfl, by simp⟩

theorem create_match_exists (st : MatchState) (u t score : ℕ) :
    ∃ r ∈ (create_match st u t score).match_rows, r.user = u ∧ r.matched_user = t := by
  unfold create_match
  cases hfind : findMatch st.match_rows u t with
  | some r =>
    obtain ⟨hm, h1, h2⟩ := findMatch_key hfind
    exact ⟨r, hm, h1, h2⟩
  | none =>
    exact ⟨_, List.mem_append_right _ (List.mem_singleton_self _), rfl, rfl⟩

theorem mutualSym_create {st : MatchState} (u t score : ℕ)
    (hinv : MutualSym st.match_rows) :
    MutualSym (create_match st u t score).match_rows := by
  unfold create_match
  cases hfind : findMatch st.match_rows u t with
  | some r => exact hinv
  | none =>
    intro r' hr' hm
    rcases List.mem_append.1 hr' with hin | hnew
    · exact hasMutual_append (hinv r' hin hm) _
    · rw [List.mem_singleton.1 hnew] at hm
      cases hm

theorem mutualStamped_create {st : MatchState} (u t score : ℕ)
    (h : MutualStamped st.match_rows) :
    MutualStamped (create_match st u t score).match_rows := by
  unfold create_match
  cases hfind : findMatch st.match_rows u t with
  | some r => exact h
  | none =>
    intro r' hr' hm
    rcases List.mem_append.1 hr' with hin | hnew
    · exact h r' hin hm
    · rw [List.mem_singleton.1 hnew] at hm
      cases hm

theorem create_match_swipes (st : MatchState) (u t score : ℕ) :
    (create_match st u t score).swipes = st.swipes := by
  unfold create_match
  cases findMatch st.match_rows u t <;> rfl

theorem mutualSym_likeStep {st : MatchState} (u t score : ℕ)
    (hinv : MutualSym st.match_rows) :
    MutualSym (likeStep st u t score).match_rows := by
  unfold likeStep
  dsimp only
  split
  · exact mutualSym_mark (create_match_exists st u t score)
      (mutualSym_create u t score hinv)
  · exact mutualSym_create u t score hinv

theorem mutualStamped_likeStep {st : MatchState} (u t score : ℕ)
    (h : MutualStamped st.match_rows) :
    MutualStamped (likeStep st u t score).match_rows := by
  unfold likeStep
  dsimp only
  split
  · exact mutualStamped_mark u t (mutualStamped_create u t score h)
  · exact mutualStamped_create u t score h

theorem mutualSym_swipe {st : MatchState} (scoreFn : ℕ → ℕ → ℕ) (u t : ℕ)
    (action : SwipeKind) (hinv : MutualSym st.match_rows) :
    MutualSym (create_swipe_action st scoreFn u t action).match_rows := by
  unfold create_swipe_action swipeSaveHook
  dsimp only
  split
  · apply mutualSym_likeStep
    split
    · exact hinv
    · exact mutualSym_likeStep u t _ hinv
  · split
    · exact hinv
    · exact hinv

theorem mutualStamped_swipe {st : MatchState} (scoreFn : ℕ → ℕ → ℕ) (u t : ℕ)
    (action : SwipeKind) (h : MutualStamped st.match_rows) :
    MutualStamped (create_swipe_action st scoreFn u t action).match_rows := by
  unfold create_swipe_action swipeSaveHook
  dsimp only
  split
  · apply mutualStamped_likeStep
    split
    · exact h
    · exact mutualStamped_likeStep u t _ h
  · split
    · exact h
    · exact h

/-- Concrete scenario: from an empty database, user 1 likes user 2, then
user 2 likes user 1 (with a constant match score of 70). -/
def twoLikesAB : MatchState :=
  create_swipe_action (create_swipe_action ⟨[], [], 0⟩ (fun _ _ => 70) 1 2 .like)
    (fun _ _ => 70) 2 1 .like

/-- Concrete scenario: the two reciprocal likes recorded in the other order. -/
def twoLikesBA : MatchState :=
  create_swipe_action (create_swipe_action ⟨[], [], 0⟩ (fun _ _ => 70) 2 1 .like)
    (fun _ _ => 70) 1 2 .like

/-- C2: after two reciprocal like swipes between users 1 and 2 (in either
order), exactly two `Match` rows exist — one in each direction — both with
`is_mutual = true` and status `matched`, with no duplicates and no row left
non-mutual; and in general `create_swipe_action` preserves the invariant that
every mutual `Match` row has a mutual reverse row. -/
theorem c2_reciprocal_likes_mutual :
    (twoLikesAB.match_rows =
      [{ user := 1, matched_user := 2, status := .matched, match_score := 70,
         is_mutual := true, matched_at := some 1 },
       { user := 2, matched_user := 1, status := .matched, match_score := 70,
         is_mutual := true, matched_at := some 2 }]) ∧
    (twoLikesBA.match_rows =
      [{ user := 2, matched_user := 1, status := .matched, match_score := 70,
         is_mutual := true, matched_at := some 1 },
       { user := 1, matched_user := 2, status := .matched, match_score := 70,
         is_mutual := true, matched_at := some 2 }]) ∧
    (∀ (st : MatchState) (scoreFn : ℕ → ℕ → ℕ) (u t : ℕ) (action : SwipeKind),
      MutualSym st.match_rows →
      MutualSym (create_swipe_action st scoreFn u t action).match_rows) :=
  ⟨by decide, by decide, fun _ scoreFn u t action h => mutualSym_swipe scoreFn u t action h⟩

/-- Witness for C2's invariant-preservation part: starting from the empty
database (which satisfies the invariant vacuously), a single like from user 1
to user 2 leaves the invariant intact. -/
theorem c2_reciprocal_likes_mutual_witness :
    MutualSym (create_swipe_action ⟨[], [], 0⟩ (fun _ _ => 70) 1 2 .like).match_rows :=
  c2_reciprocal_likes_mutual.2.2 ⟨[], [], 0⟩ (fun _ _ => 70) 1 2 .like
    (fun r hr => absurd hr (List.not_mem_nil r))

/-- Counterexample for C5 as stated: in the concrete reciprocal-like scenario
`twoLikesAB`, both directional rows are mutual, yet their `matched_at`
timestamps differ (the source stamps each row with a separate
`timezone.now()` call), so mutual rows do not carry equal `matched_at`. -/
theorem c5_equal_matched_at_counterexample :
    ¬ (∀ r ∈ twoLikesAB.match_rows, ∀ r' ∈ twoLikesAB.match_rows,
        r.is_mutual = true → r'.is_mutual = true →
        r'.user = r.matched_user → r'.matched_user = r.user →
        r.matched_at = r'.matched_at) := by decide

/-- C5 as amended: after every `create_swipe_action`, whenever a `Match` row
is mutual, both directional rows exist with `is_mutual = true`, status
`matched`, and a non-null `matched_at`; the two timestamps come from separate
clock reads and need not be equal (witnessed concretely by `twoLikesAB`,
whose two mutual rows are stamped at ticks 1 and 2). -/
theorem c5_mutual_promotion_amended :
    (∀ (st : MatchState) (scoreFn : ℕ → ℕ → ℕ) (u t : ℕ) (action : SwipeKind),
      MutualSym st.match_rows → MutualStamped st.match_rows →
      MutualSym (create_swipe_action st scoreFn u t action).match_rows ∧
      MutualStamped (create_swipe_action st scoreFn u t action).match_rows) ∧
    (∀ r ∈ twoLikesAB.match_rows,
      r.is_mutual = true ∧ r.status = .matched ∧ r.matched_at ≠ none) :=
  ⟨fun _ scoreFn u t action hs hst =>
    ⟨mutualSym_swipe scoreFn u t action hs, mutualStamped_swipe scoreFn u t action hst⟩,
   by decide⟩

/-- Witness for C5 (amended): the invariants hold after a single like
recorded from the empty database, and concretely for the first row of
`twoLikesAB`. -/
theorem c5_mutual_promotion_amended_witness :
    MutualStamped (create_swipe_action ⟨[], [], 0⟩ (fun _ _ => 70) 1 2 .like).match_rows :=
  (c5_mutual_promotion_amended.1 ⟨[], [], 0⟩ (fun _ _ => 70) 1 2 .like
    (fun r hr => absurd hr (List.not_mem_nil r))
    (fun r hr => absurd hr (List.not_mem_nil r))).2

/-- C7: creating a block between users `A` and `B` deletes every `Match` row
in both directions between them, unconditionally and regardless of mutual
status: no row keyed `(A, B)` or `(B, A)` survives `block_user`. -/
theorem c7_block_deletes_both_directions (st : MatchState) (blocks : List BlockRow)
    (A B : ℕ) :
    ∀ r ∈ (block_user st blocks A B).1.match_rows,
      ¬((r.user = A ∧ r.matched_user = B) ∨ (r.user = B ∧ r.matched_user = A)) := by
  intro r hr
  unfold block_user at hr
  dsimp only at hr
  have hp := List.of_mem_filter hr
  simp only [Bool.not_eq_eq_eq_not, Bool.not_true, Bool.or_eq_false_iff,
    Bool.and_eq_false_iff, beq_eq_false_iff_ne, ne_eq] at hp
  rintro (⟨h1, h2⟩ | ⟨h1, h2⟩)
  · rcases hp.1 with h | h <;> exact h (by assumption)
  · rcases hp.2 with h | h <;> exact h (by assumption)

/-- Witness for C7: blocking user 1 against user 2 in a database holding the
mutual pair (1,2)/(2,1) plus an unrelated row (3,4) leaves only the unrelated
row, which indeed is keyed by neither blocked direction. -/
theorem c7_block_deletes_both_directions_witness :
    ¬((({ user := 3, matched_user := 4, status := .pending, match_score := 50,
          is_mutual := false, matched_at := none } : MatchRow).user = 1 ∧
       ({ user := 3, matched_user := 4, status := .pending, match_score := 50,
          is_mutual := false, matched_at := none } : MatchRow).matched_user = 2) ∨
      (({ user := 3, matched_user := 4, status := .pending, match_score := 50,
          is_mutual := false, matched_at := none } : MatchRow).user = 2 ∧
       ({ user := 3, matched_user := 4, status := .pending, match_score := 50,
          is_mutual := false, matched_at := none } : MatchRow).matched_user = 1)) :=
  c7_block_deletes_both_directions
    ⟨[], [{ user := 1, matched_user := 2, status := .matched, match_score := 70,
            is_mutual := true, matched_at := some 1 },
          { user := 2, matched_user := 1, status := .matched, match_score := 70,
            is_mutual := true, matched_at := some 2 },
          { user := 3, matched_user := 4, status := .pending, match_score := 50,
            is_mutual := false, matched_at := none }], 5⟩ [] 1 2
    { user := 3, matched_user := 4, status := .pending, match_score := 50,
      is_mutual := false, matched_at := none } (by decide)

/-! ## Daily message quota
(`src/apps/messaging/models.py` lines 425-497 and
`src/apps/messaging copy/services.py` lines 71-202) -/

/-- Value stored in a `DailyMessageQuota` column.  Python is dynamically
typed: `get_quota` stores its positional arguments as given, so a column can
end up holding a user id, a conversation id, or a calendar date. -/
inductive FieldVal where
  | userRef (id : ℕ)
  | convRef (id : ℕ)
  | dateRef (day : ℕ)
deriving DecidableEq, Repr

/-- Embeds a `daily_message_quotas` row (models.py lines 425-459): the values
held by the `user` and `date` columns plus the three counters. -/
structure DailyMessageQuota where
  userField : FieldVal
  dateField : FieldVal
  total_messages_sent : ℕ
  free_messages_used : ℕ
  paid_messages_sent : ℕ
deriving DecidableEq, Repr

/-- Embeds `DailyMessageQuota.get_quota` (models.py lines 461-479):
`get_or_create` keyed on the two positional arguments `(user, date_obj)`,
with zero counters on creation.  Returns the row found or created together
with the possibly-extended table. -/
def get_quota (rows : List DailyMessageQuota) (user date_obj : FieldVal) :
    DailyMessageQuota × List DailyMessageQuota :=
  match rows.find? (fun r => r.userField == user && r.dateField == date_obj) with
  | some q => (q, rows)
  | none =>
    let q : DailyMessageQuota :=
      { userField := user, dateField := date_obj, total_messages_sent := 0,
        free_messages_used := 0, paid_messages_sent := 0 }
    (q, rows ++ [q])

/-- Embeds `DailyMessageQuota.has_free_messages_remaining` (models.py lines
492-496); `settings.FREE_MESSAGES_LIMIT` is the configured parameter
`freeLimit` (its value, 3 per the module docstring, lives in a settings file
absent from the sources). -/
def has_free_messages_remaining (freeLimit : ℕ) (q : DailyMessageQuota) : Bool :=
  q.free_messages_used < freeLimit

/-- Embeds `DailyMessageQuota.increment` (models.py lines 481-490). -/
def DailyMessageQuota.increment (q : DailyMessageQuota) (is_paid : Bool) :
    DailyMessageQuota :=
  { q with
    total_messages_sent := q.total_messages_sent + 1,
    free_messages_used :=
      if is_paid then q.free_messages_used else q.free_messages_used + 1,
    paid_messages_sent :=
      if is_paid then q.paid_messages_sent + 1 else q.paid_messages_sent }

/-- Embeds `MessageService.calculate_message_cost`
(`messaging copy/services.py` lines 71-95).  The source calls
`DailyMessageQuota.get_quota(conversation, sender)`: the conversation is
passed as the `user` argument and the sender as the `date_obj` argument, and
the embedding reproduces exactly that argument order.
`settings.MESSAGE_COIN_COST` is the configured parameter `msgCost`. -/
def calculate_message_cost (freeLimit msgCost : ℕ) (rows : List DailyMessageQuota)
    (sender conversation : ℕ) : ℕ × List DailyMessageQuota :=
  let p := get_quota rows (.convRef conversation) (.userRef sender)
  if has_free_messages_remaining freeLimit p.1 then (0, p.2)
  else (msgCost, p.2)

/-- Row replacement by the `(user, date)` key. -/
def updateQuotaRows (rows : List DailyMessageQuota) (user date_obj : FieldVal)
    (f : DailyMessageQuota → DailyMessageQuota) : List DailyMessageQuota :=
  rows.map (fun r => if r.userField == user && r.dateField == date_obj then f r else r)

/-- Embeds the quota-relevant steps 4 and 8 of `MessageService.send_message`
(`messaging copy/services.py` lines 97-202): compute the coin cost, then
re-fetch the quota row — again via `get_quota(conversation, sender)` — and
increment it with `is_paid = cost > 0`.  The sender's wallet is assumed to
cover the cost (the send succeeds); returns the cost charged and the updated
quota table. -/
def send_message_quota (freeLimit msgCost : ℕ) (rows : List DailyMessageQuota)
    (sender conversation : ℕ) : ℕ × List DailyMessageQuota :=
  let c := calculate_message_cost freeLimit msgCost rows sender conversation
  let p := get_quota c.2 (.convRef conversation) (.userRef sender)
  (c.1, updateQuotaRows p.2 p.1.userField p.1.dateField
    (fun _ => p.1.increment (decide (0 < c.1))))

/-- Sequence of sends by one sender on one calendar day, each targeting the
given conversation id, threading the quota table through. -/
def sendSeq (freeLimit msgCost : ℕ) (rows : List DailyMessageQuota) (sender : ℕ) :
    List ℕ → List ℕ × List DailyMessageQuota
  | [] => ([], rows)
  | conv :: rest =>
    let p := send_message_quota freeLimit msgCost rows sender conv
    let q := sendSeq freeLimit msgCost p.2 sender rest
    (p.1 :: q.1, q.2)

/-- C1 fails on the code: with `FREE_MESSAGES_LIMIT = 3` and
`MESSAGE_COIN_COST = 1`, sender 1 sends three messages in conversation 10 and
then a fourth message the same day in conversation 20 — the claim requires
the fourth message to cost 1 coin, but the code charges 0, because
`calculate_message_cost` keys the quota row by `(conversation, sender)`
rather than `(user, date)`.  Sending the fourth message in the same
conversation does cost 1, and the resulting table holds one row per
conversation with the sender stored in the `date` column — there is no
per-(user, date) row at all. -/
theorem c1_quota_scoped_per_conversation_code_bug :
    (sendSeq 3 1 [] 1 [10, 10, 10, 20]).1 = [0, 0, 0, 0] ∧
    (sendSeq 3 1 [] 1 [10, 10, 10, 10]).1 = [0, 0, 0, 1] ∧
    (sendSeq 3 1 [] 1 [10, 10, 10, 20]).2 =
      [{ userField := .convRef 10, dateField := .userRef 1,
         total_messages_sent := 3, free_messages_used := 3, paid_messages_sent := 0 },
       { userField := .convRef 20, dateField := .userRef 1,
         total_messages_sent := 1, free_messages_used := 1, paid_messages_sent := 0 }] := by
  decide

/-! ## Discovery pipeline (`src/apps/matching/services.py` lines 231-420) -/

/-- Embeds the `Profile` columns read by the matching core
(`src/apps/users/models.py` lines 64-112).  `age` is the `Profile.age`
property derived from `birth_date` (with month/day correction) and
`birth_year` is `birth_date.year`; both are carried as explicit fields of the
embedded record, `none` when `birth_date` is null.  Blank `CharField`s are
`none`. -/
structure Profile where
  gender : Option String
  relationship_goal : Option String
  looking_for_gender : Option String
  min_age_preference : ℕ
  max_age_preference : ℕ
  profile_completion_percentage : ℕ
  interests : Finset ℕ
  age : Option ℕ
  birth_year : Option ℕ
deriving DecidableEq

/-- Embeds a user row together with its profile (profile-less users are
excluded by the completion filter's inner join and cannot be the requester,
whose profile the source dereferences unconditionally). -/
structure UserRec where
  id : ℕ
  is_active : Bool
  profile : Profile
deriving DecidableEq

/-- Embeds `UserPreference` (`src/apps/matching/models.py` lines 156-214). -/
structure UserPreference where
  show_only_verified : Bool
  hide_seen_profiles : Bool
  age_importance : ℕ
  distance_importance : ℕ
  interests_importance : ℕ
  relationship_goal_importance : ℕ
  min_profile_completion : ℕ
deriving DecidableEq, Repr

/-- Python truthiness default `user_profile.age or 25`: 25 when the age is
missing or zero. -/
def pyAgeOr25 (a : Option ℕ) : ℕ :=
  match a with
  | some n => if n = 0 then 25 else n
  | none => 25

/-- Embeds `MatchingService.calculate_match_score` (services.py lines
231-303): the age component participates only when the target's age is
known; interests and relationship-goal components always participate; the
final score is the importance-weighted average, truncated to an integer and
clamped to `[0, 100]` (or the neutral 50 when the total weight is zero). -/
def calculate_match_score (user target_user : UserRec)
    (preferences : UserPreference) : ℤ :=
  let user_profile := user.profile
  let target_profile := target_user.profile
  let agePair : Option (ℤ × ℤ) :=
    match target_profile.age with
    | some target_age =>
      some (MatchingService.calculate_age_score
          ((pyAgeOr25 user_profile.age : ℕ) : ℤ) (target_age : ℤ)
          (user_profile.min_age_preference : ℤ) (user_profile.max_age_preference : ℤ)
          (preferences.age_importance : ℤ),
        (preferences.age_importance : ℤ))
    | none => none
  let s_interests : ℤ := MatchingService.calculate_interest_score
      user_profile.interests target_profile.interests
      (preferences.interests_importance : ℤ)
  let s_goals : ℤ := MatchingService.calculate_relationship_goal_score
      user_profile.relationship_goal target_profile.relationship_goal
      (preferences.relationship_goal_importance : ℤ)
  let total_weighted_score : ℤ :=
    (agePair.map (fun p => p.1 * p.2)).getD 0 +
    s_interests * (preferences.interests_importance : ℤ) +
    s_goals * (preferences.relationship_goal_importance : ℤ)
  let total_weight : ℤ :=
    (agePair.map (fun p => p.2)).getD 0 +
    (preferences.interests_importance : ℤ) +
    (preferences.relationship_goal_importance : ℤ)
  if total_weight = 0 then 50
  else
    let final_score : ℤ := truncQ ((total_weighted_score : ℚ) / (total_weight : ℚ))
    max 0 (min 100 final_score)

/-- Stable descending insertion into a score-sorted list, placing the new
pair after every pair of greater-or-equal score: the unique stable
sort-by-score-descending semantics of `list.sort(key=score, reverse=True)`. -/
def insertScoredDesc (x : UserRec × ℤ) : List (UserRec × ℤ) → List (UserRec × ℤ)
  | [] => [x]
  | y :: ys => if y.2 < x.2 then x :: y :: ys else y :: insertScoredDesc x ys

/-- Stable sort of scored candidates by score descending. -/
def sortScoredDesc : List (UserRec × ℤ) → List (UserRec × ℤ)
  | [] => []
  | x :: xs => insertScoredDesc x (sortScoredDesc xs)

/-- Stage 1 of `get_potential_matches` (services.py lines 339-349): all
active users except the requester. -/
def gpmBase (db : List UserRec) (user : UserRec) : List UserRec :=
  db.filter (fun c => c.is_active && c.id != user.id)

/-- Stage 2 (lines 351-355): hard filter by the requester's declared gender
preference, when set. -/
def gpmGender (q : List UserRec) (user : UserRec) : List UserRec :=
  match user.profile.looking_for_gender with
  | some g => q.filter (fun c => c.profile.gender == some g)
  | none => q

/-- Stage 3 (lines 357-367): hard filter by birth-year range derived from the
age-range preference, applied only when the requester's own age is truthy. -/
def gpmAge (q : List UserRec) (user : UserRec) (current_year : ℕ) : List UserRec :=
  if user.profile.age.getD 0 ≠ 0 then
    let max_birth_year : ℤ := (current_year : ℤ) - (user.profile.min_age_preference : ℤ)
    let min_birth_year : ℤ :=
      (current_year : ℤ) - (user.profile.max_age_preference : ℤ) - 1
    q.filter (fun (c : UserRec) =>
      match c.profile.birth_year with
      | some y => decide (min_birth_year ≤ (y : ℤ) ∧ (y : ℤ) ≤ max_birth_year)
      | none => false)
  else q

/-- Stage 4 (lines 369-372): hard filter by minimum profile completion. -/
def gpmCompletion (q : List UserRec) (preferences : UserPreference) : List UserRec :=
  q.filter (fun (c : UserRec) =>
    decide (preferences.min_profile_completion ≤ c.profile.profile_completion_percentage))

/-- The exclusion id set of lines 374-382: both endpoints of every block row
involving the requester (the requester's own id lands in the set too,
harmlessly). -/
def gpmBlockedIds (blocks : List BlockRow) (user : UserRec) : List ℕ :=
  let blocked_pairs := blocks.filter (fun b =>
    b.blocker == user.id || b.blocked_user == user.id)
  blocked_pairs.map (fun b => b.blocked_user) ++ blocked_pairs.map (fun b => b.blocker)

/-- Stage 5 (lines 384-385): exclude blocked ids when the set is non-empty. -/
def gpmBlocks (q : List UserRec) (blocks : List BlockRow) (user : UserRec) :
    List UserRec :=
  if (gpmBlockedIds blocks user).isEmpty then q
  else q.filter (fun (c : UserRec) =>
    !((gpmBlockedIds blocks user).any (fun i => i == c.id)))

/-- Stage 6 (lines 387-393): when the hide-seen preference is set, exclude
every target the requester has already swiped on (like or pass). -/
def gpmSeen (q : List UserRec) (swipes : List SwipeRow) (user : UserRec)
    (preferences : UserPreference) : List UserRec :=
  if preferences.hide_seen_profiles then
    let already_swiped := (swipes.filter (fun s => s.user == user.id)).map
      (fun s => s.target_user)
    q.filter (fun (c : UserRec) => !(already_swiped.any (fun i => i == c.id)))
  else q

/-- Stages 7-8 (lines 395-409): pull the oversized `limit * 3` batch, score
each survivor, and keep those meeting `settings.MIN_MATCH_SCORE` (the
configured parameter `minMatchScore`; `current_year` is
`date.today().year`). -/
def gpmScored (db : List UserRec) (blocks : List BlockRow) (swipes : List SwipeRow)
    (user : UserRec) (preferences : UserPreference) (minMatchScore : ℤ)
    (current_year : ℕ) (limit : ℕ) : List (UserRec × ℤ) :=
  let q6 : List UserRec :=
    (gpmSeen
      (gpmBlocks
        (gpmCompletion
          (gpmAge (gpmGender (gpmBase db user) user) user current_year)
          preferences)
        blocks user)
      swipes user preferences).take (limit * 3)
  (q6.map (fun c => (c, calculate_match_score user c preferences))).filter
    (fun p => decide (minMatchScore ≤ p.2))

/-- Embeds `MatchingService.get_potential_matches` (services.py lines
305-420) minus the cache layer (per the spec, the cache is a pure
performance optimization and a miss reproduces the same pipeline): sort the
surviving scored candidates by score descending, truncate to `limit`, and
return the users. -/
def get_potential_matches (db : List UserRec) (blocks : List BlockRow)
    (swipes : List SwipeRow) (user : UserRec) (preferences : UserPreference)
    (minMatchScore : ℤ) (current_year : ℕ) (limit : ℕ) : List UserRec :=
  ((sortScoredDesc
      (gpmScored db blocks swipes user preferences minMatchScore current_year limit)).take
    limit).map (fun m => m.1)

theorem mem_insertScoredDesc (x a : UserRec × ℤ) (l : List (UserRec × ℤ)) :
    a ∈ insertScoredDesc x l ↔ a = x ∨ a ∈ l := by
  induction l with
  | nil => simp [insertScoredDesc]
  | cons y ys ih =>
    unfold insertScoredDesc
    split
    · simp [List.mem_cons]
    · simp only [List.mem_cons, ih]
      tauto

theorem sorted_insertScoredDesc {x : UserRec × ℤ} {l : List (UserRec × ℤ)}
    (h : l.Pairwise (fun a b => b.2 ≤ a.2)) :
    (insertScoredDesc x l).Pairwise (fun a b => b.2 ≤ a.2) := by
  induction l with
  | nil => simp [insertScoredDesc]
  | cons y ys ih =>
    rcases List.pairwise_cons.1 h with ⟨hy, hys⟩
    unfold insertScoredDesc
    split
    · rename_i hlt
      refine List.pairwise_cons.2 ⟨?_, h⟩
      intro z hz
      rcases List.mem_cons.1 hz with rfl | hz
      · omega
      · have := hy z hz
        omega
    · rename_i hge
      refine List.pairwise_cons.2 ⟨?_, ih hys⟩
      intro z hz
      rcases (mem_insertScoredDesc x z ys).1 hz with rfl | hz
      · omega
      · exact hy z hz

theorem sorted_sortScoredDesc (l : List (UserRec × ℤ)) :
    (sortScoredDesc l).Pairwise (fun a b => b.2 ≤ a.2) := by
  induction l with
  | nil => simp [sortScoredDesc]
  | cons x xs ih => exact sorted_insertScoredDesc ih

theorem mem_sortScoredDesc {a : UserRec × ℤ} {l : List (UserRec × ℤ)} :
    a ∈ sortScoredDesc l ↔ a ∈ l := by
  induction l with
  | nil => simp [sortScoredDesc]
  | cons x xs ih =>
    unfold sortScoredDesc
    rw [mem_insertScoredDesc]
    simp [ih]

theorem gpmBase_id {db : List UserRec} {user c : UserRec}
    (h : c ∈ gpmBase db user) : c.id ≠ user.id := by
  unfold gpmBase at h
  have := List.of_mem_filter h
  simp only [Bool.and_eq_true, bne_iff_ne, ne_eq] at this
  exact this.2

theorem gpmGender_subset {q : List UserRec} {user c : UserRec}
    (h : c ∈ gpmGender q user) : c ∈ q := by
  unfold gpmGender at h
  cases hg : user.profile.looking_for_gender with
  | some g =>
    rw [hg] at h
    exact List.mem_of_mem_filter h
  | none =>
    rw [hg] at h
    exact h

theorem gpmAge_subset {q : List UserRec} {user c : UserRec} {current_year : ℕ}
    (h : c ∈ gpmAge q user current_year) : c ∈ q := by
  unfold gpmAge at h
  split at h
  · exact List.mem_of_mem_filter h
  · exact h

theorem gpmCompletion_subset {q : List UserRec} {preferences : UserPreference}
    {c : UserRec} (h : c ∈ gpmCompletion q preferences) : c ∈ q :=
  List.mem_of_mem_filter h

theorem gpmBlocks_subset {q : List UserRec} {blocks : List BlockRow} {user c : UserRec}
    (h : c ∈ gpmBlocks q blocks user) : c ∈ q := by
  unfold gpmBlocks at h
  split at h
  · exact h
  · exact List.mem_of_mem_filter h

theorem gpmSeen_subset {q : List UserRec} {swipes : List SwipeRow} {user c : UserRec}
    {preferences : UserPreference}
    (h : c ∈ gpmSeen q swipes user preferences) : c ∈ q := by
  unfold gpmSeen at h
  split at h
  · exact List.mem_of_mem_filter h
  · exact h

theorem gpmBlocks_spec {q : List UserRec} {blocks : List BlockRow} {user c : UserRec}
    (h : c ∈ gpmBlocks q blocks user) :
    ∀ b ∈ blocks, ¬((b.blocker = user.id ∧ b.blocked_user = c.id) ∨
      (b.blocker = c.id ∧ b.blocked_user = user.id)) := by
  intro b hb hbad
  have hbp : b ∈ blocks.filter (fun b =>
      b.blocker == user.id || b.blocked_user == user.id) := by
    refine List.mem_filter.2 ⟨hb, ?_⟩
    rcases hbad with ⟨h1, _⟩ | ⟨_, h2⟩
    · simp [h1]
    · simp [h2]
  have hcid : c.id ∈ gpmBlockedIds blocks user := by
    unfold gpmBlockedIds
    rcases hbad with ⟨_, h2⟩ | ⟨h1, _⟩
    · exact List.mem_append_left _ (List.mem_map.2 ⟨b, hbp, h2⟩)
    · exact List.mem_append_right _ (List.mem_map.2 ⟨b, hbp, h1⟩)
  unfold gpmBlocks at h
  split at h
  · rename_i hemp
    rw [List.isEmpty_iff] at hemp
    rw [hemp] at hcid
    exact absurd hcid (List.not_mem_nil _)
  · have hp := List.of_mem_filter h
    simp only [Bool.not_eq_eq_eq_not, Bool.not_true, List.any_eq_false,
      beq_eq_false_iff_ne, ne_eq] at hp
    exact hp c.id hcid (by simp)

theorem gpmSeen_spec {q : List UserRec} {swipes : List SwipeRow} {user c : UserRec}
    {preferences : UserPreference}
    (h : c ∈ gpmSeen q swipes user preferences)
    (hflag : preferences.hide_seen_profiles = true) :
    ∀ s ∈ swipes, ¬(s.user = user.id ∧ s.target_user = c.id) := by
  intro s hs ⟨h1, h2⟩
  unfold gpmSeen at h
  rw [if_pos hflag] at h
  have hp := List.of_mem_filter h
  simp only [Bool.not_eq_eq_eq_not, Bool.not_true, List.any_eq_false,
    beq_eq_false_iff_ne, ne_eq] at hp
  refine hp c.id ?_ (by simp)
  exact List.mem_map.2 ⟨s, List.mem_filter.2 ⟨hs, by simp [h1]⟩, h2⟩

theorem gpmScored_spec {db : List UserRec} {blocks : List BlockRow}
    {swipes : List SwipeRow} {user : UserRec} {preferences : UserPreference}
    {minMatchScore : ℤ} {current_year limit : ℕ} {p : UserRec × ℤ}
    (h : p ∈ gpmScored db blocks swipes user preferences minMatchScore
      current_year limit) :
    p.2 = calculate_match_score user p.1 preferences ∧
    minMatchScore ≤ p.2 ∧
    p.1.id ≠ user.id ∧
    (∀ b ∈ blocks, ¬((b.blocker = user.id ∧ b.blocked_user = p.1.id) ∨
      (b.blocker = p.1.id ∧ b.blocked_user = user.id))) ∧
    (preferences.hide_seen_profiles = true →
      ∀ s ∈ swipes, ¬(s.user = user.id ∧ s.target_user = p.1.id)) := by
  unfold gpmScored at h
  dsimp only at h
  rw [List.mem_filter] at h
  obtain ⟨hm, hpred⟩ := h
  obtain ⟨c, hc, rfl⟩ := List.mem_map.1 hm
  have hc5 := List.take_subset _ _ hc
  have hc4 := gpmSeen_subset hc5
  have hc3 := gpmBlocks_subset hc4
  have hc2 := gpmCompletion_subset hc3
  have hc1 := gpmAge_subset hc2
  have hc0 := gpmGender_subset hc1
  refine ⟨rfl, by simpa using hpred, gpmBase_id hc0, gpmBlocks_spec hc4, ?_⟩
  intro hflag
  exact gpmSeen_spec hc5 hflag

/-- C6: for every database state, requester and limit, the discovery result
has length at most `limit`, is sorted by overall match score in descending
order, never contains the requester, never contains a user in a block
relationship with the requester in either direction, never contains an
already-swiped target when the hide-seen preference is enabled, and every
returned candidate's score meets the configured minimum threshold. -/
theorem c6_discovery_contract (db : List UserRec) (blocks : List BlockRow)
    (swipes : List SwipeRow) (user : UserRec) (preferences : UserPreference)
    (minMatchScore : ℤ) (current_year limit : ℕ) :
    let result := get_potential_matches db blocks swipes user preferences
      minMatchScore current_year limit
    result.length ≤ limit ∧
    (result.map (fun c => calculate_match_score user c preferences)).Pairwise
      (fun a b => b ≤ a) ∧
    (∀ c ∈ result, c.id ≠ user.id) ∧
    (∀ c ∈ result, ∀ b ∈ blocks,
      ¬((b.blocker = user.id ∧ b.blocked_user = c.id) ∨
        (b.blocker = c.id ∧ b.blocked_user = user.id))) ∧
    (preferences.hide_seen_profiles = true →
      ∀ c ∈ result, ∀ s ∈ swipes, ¬(s.user = user.id ∧ s.target_user = c.id)) ∧
    (∀ c ∈ result, minMatchScore ≤ calculate_match_score user c preferences) := by
  intro result
  have hres : result =
      ((sortScoredDesc (gpmScored db blocks swipes user preferences minMatchScore
        current_year limit)).take limit).map (fun m => m.1) := rfl
  have hmem : ∀ c ∈ result, ∃ s : ℤ,
      (c, s) ∈ gpmScored db blocks swipes user preferences minMatchScore
        current_year limit := by
    intro c hc
    rw [hres] at hc
    obtain ⟨p, hp, rfl⟩ := List.mem_map.1 hc
    exact ⟨p.2, mem_sortScoredDesc.1 (List.take_subset _ _ hp)⟩
  refine ⟨?_, ?_, ?_, ?_, ?_, ?_⟩
  · rw [hres, List.length_map]
    have := List.length_take limit (sortScoredDesc (gpmScored db blocks swipes user
      preferences minMatchScore current_year limit))
    omega
  · rw [hres, List.pairwise_map, List.pairwise_map]
    have h1 := sorted_sortScoredDesc (gpmScored db blocks swipes user preferences
      minMatchScore current_year limit)
    have h2 := h1.sublist (List.take_sublist limit _)
    refine h2.imp_of_mem ?_
    intro a b ha hb hle
    have ha' := (gpmScored_spec (mem_sortScoredDesc.1 (List.take_subset _ _ ha))).1
    have hb' := (gpmScored_spec (mem_sortScoredDesc.1 (List.take_subset _ _ hb))).1
    rw [← ha', ← hb']
    exact hle
  · intro c hc
    obtain ⟨s, hs⟩ := hmem c hc
    exact (gpmScored_spec hs).2.2.1
  · intro c hc
    obtain ⟨s, hs⟩ := hmem c hc
    exact (gpmScored_spec hs).2.2.2.1
  · intro hflag c hc
    obtain ⟨s, hs⟩ := hmem c hc
    exact (gpmScored_spec hs).2.2.2.2 hflag
  · intro c hc
    obtain ⟨s, hs⟩ := hmem c hc
    have h := gpmScored_spec hs
    have := h.2.1
    rw [h.1] at this
    exact this

/-- Witness for C6 at a concrete input: with requester 1 and candidate 2 in
the database (no blocks, no swipes, hide-seen off), candidate 2 is returned
by discovery, and the theorem yields that it is not the requester. -/
theorem c6_discovery_contract_witness :
    (⟨2, true, ⟨none, none, none, 18, 100, 90, ∅, none, none⟩⟩ : UserRec).id ≠
      (⟨1, true, ⟨none, none, none, 18, 100, 80, ∅, none, none⟩⟩ : UserRec).id :=
  (c6_discovery_contract
    [⟨1, true, ⟨none, none, none, 18, 100, 80, ∅, none, none⟩⟩,
     ⟨2, true, ⟨none, none, none, 18, 100, 90, ∅, none, none⟩⟩]
    [] [] ⟨1, true, ⟨none, none, none, 18, 100, 80, ∅, none, none⟩⟩
    ⟨false, false, 0, 0, 0, 0, 50⟩ 40 2026 20).2.2.1
    ⟨2, true, ⟨none, none, none, 18, 100, 90, ∅, none, none⟩⟩ (by decide)
